import Mathlib

/-!
Verification of the Go TLS return-site resolver
(`user/config/config_gotls.go`) against its specification.

The Go code is shallowly embedded: byte slices become `List Nat`,
`uint64` arithmetic is explicit `% 2 ^ 64`, fallible calls return
`Except`, and a Go runtime panic (slice index out of range) is the
distinguished outcome `GoErr.runtimePanic`.  The third-party
instruction decoders (`golang.org/x/arch`) are outside this
repository, so the scanner is parameterised over an abstract
decoder; the decoder interface encodes the positive-length contract
of the spec (amd64: 1 to 15 bytes; arm64: 4 bytes).
-/

namespace GoTLSVerify

/-- Modelled from the spec: the capture-model identifier constants
(`TlsCaptureModelText` and friends) are defined elsewhere in the
repository (package `user/config`), not under the sources given here;
the spec describes a closed set of models {text, pcap/pcapng,
key/keylog}, which we model as the corresponding distinct strings. -/
def TlsCaptureModelText : String := "text"

/-- Modelled from the spec: see `TlsCaptureModelText`. -/
def TlsCaptureModelPcap : String := "pcap"

/-- Modelled from the spec: see `TlsCaptureModelText`. -/
def TlsCaptureModelPcapng : String := "pcapng"

/-- Modelled from the spec: see `TlsCaptureModelText`. -/
def TlsCaptureModelKey : String := "key"

/-- Modelled from the spec: see `TlsCaptureModelText`. -/
def TlsCaptureModelKeylog : String := "keylog"

/-- Go constant `GoTlsReadFunc = "crypto/tls.(*Conn).Read"`. -/
def GoTlsReadFunc : String := "crypto/tls.(*Conn).Read"

/-- Go constant `Arm64armInstSize = 4`: the fixed arm64 instruction width. -/
def Arm64armInstSize : Nat := 4

/-- ELF machine value `EM_AARCH64` (183), from `debug/elf`. -/
def EM_AARCH64 : Nat := 183

/-- ELF machine value `EM_X86_64` (62), from `debug/elf`. -/
def EM_X86_64 : Nat := 62

/-- The error outcomes of `Check` / `findRetOffsets`.  Named error
singletons of the Go source become constructors; errors produced by
collaborators (`os.Stat`, `elf.Open`, `Section.Data`, the instruction
decoders) are opaque, so they become parameterless constructors; a Go
runtime panic (out-of-range slice or index) is `runtimePanic`, which is
a crash of the program, not an error value returned to the caller.
The last two constructors are spec-side kinds that NO code path
produces: `decodeErr` is the kind a decode error propagated out of
`findRetOffsets` would have (the spec asserts this propagation; the
code discards the error), and `corruptSymbolRange` is the error the
spec asserts for an inconsistent symbol/section range (the code
performs no such check and panics instead). -/
inductive GoErr where
  | goBinNotFound
  | ifnameRequired
  | statErr
  | elfOpenErr
  | archMismatch (want got : String)
  | unsupportedArch (arch : String)
  | noSymbolsFound
  | symbolNotFound
  | sectionDataErr
  | noRetFound
  | runtimePanic
  | decodeErr
  | corruptSymbolRange
deriving Repr, DecidableEq

/-- One entry of an ELF symbol table (`elf.Symbol`): name, virtual
address (`Value`), size and owning-section index, all `uint64`
values modelled as `Nat`. -/
structure ElfSymbol where
  Name : String
  Value : Nat
  Size : Nat
  Section : Nat
deriving Repr, DecidableEq

/-- One ELF section (`elf.Section`): its virtual address and the result
of `Section.Data()`, which may fail. -/
structure ElfSection where
  Addr : Nat
  Data : Except Unit (List Nat)

/-- A parsed ELF file (`elf.File`): machine field, static symbol table,
dynamic symbol table, section table.  `Symbols()` / `DynamicSymbols()`
errors are ignored by the Go code (`goSymbs, _ :=`), so the tables are
plain lists (empty when the lookup failed). -/
structure ElfFile where
  Machine : Nat
  Symbols : List ElfSymbol
  DynamicSymbols : List ElfSymbol
  Sections : List ElfSection

/-- The fields of `GoTLSConfig` that `Check` reads. -/
structure GoTLSConfig where
  Path : String
  Model : String
  Ifname : String

/-- An abstract architecture instruction decoder, the interface of the
third-party `x86asm.Decode` / `arm64asm.Decode`.  Given the byte slice
starting at the cursor it either fails (an opaque decode error) or
returns the decoded instruction length together with whether the
instruction is a return.  The spec fixes the length contract (amd64:
1 to 15 bytes, arm64: exactly 4), of which the scanner only needs
positivity, so the length carries a positivity proof. -/
abbrev Decoder : Type := List Nat → Except Unit ({ l : Nat // 0 < l } × Bool)

/-- The scan loop of `decodeInstruction`: cursor `i` walks the byte
slice; on amd64 the x86 decoder is consulted and the cursor advances by
the decoded length, otherwise the arm64 decoder is consulted and the
cursor advances by the constant `Arm64armInstSize`; offsets of return
instructions are appended.  The Go `for` loop is modelled with explicit
fuel; `none` means the fuel ran out (the loop would still be running),
and `scanLoop_some` below shows fuel `instHex.length` always suffices. -/
def scanLoop (arch : String) (dx da : Decoder) (instHex : List Nat) :
    Nat → Nat → List Nat → Option (Except Unit (List Nat))
  | 0, i, offsets =>
    if i < instHex.length then none else some (Except.ok offsets)
  | fuel + 1, i, offsets =>
    if i < instHex.length then
      if arch = "amd64" then
        match dx (List.drop i instHex) with
        | Except.error e => some (Except.error e)
        | Except.ok (l, isRet) =>
          scanLoop arch dx da instHex fuel (i + l.val)
            (if isRet then offsets ++ [i] else offsets)
      else
        match da (List.drop i instHex) with
        | Except.error e => some (Except.error e)
        | Except.ok (_, isRet) =>
          scanLoop arch dx da instHex fuel (i + Arm64armInstSize)
            (if isRet then offsets ++ [i] else offsets)
    else some (Except.ok offsets)

/-- `decodeInstruction` of the Go source, parameterised over the two
architecture decoders.  Returns the list of return-instruction offsets
or the first decode error; `none` is impossible (`decode_terminates`). -/
def decodeInstruction (arch : String) (dx da : Decoder) (instHex : List Nat) :
    Option (Except Unit (List Nat)) :=
  scanLoop arch dx da instHex instHex.length 0 []

/-- The symbol-resolution part of `findRetOffsets` (lines 113-143):
concatenate the static and dynamic symbol tables, fail if the
concatenation is empty, otherwise take the first entry whose name
equals the requested name exactly. -/
def resolveSymbol (goElf : ElfFile) (symbolName : String) :
    Except GoErr ElfSymbol :=
  let allSymbs := goElf.Symbols ++ goElf.DynamicSymbols
  if allSymbs.length = 0 then
    Except.error GoErr.noSymbolsFound
  else
    match allSymbs.find? (fun s => s.Name == symbolName) with
    | some symbol => Except.ok symbol
    | none => Except.error GoErr.symbolNotFound

/-- Reduction modulo `2 ^ 64`, the Go `uint64` semantics. -/
def u64 (x : Nat) : Nat := x % 2 ^ 64

/-- `start := symbol.Value - section.Addr` in `uint64` arithmetic. -/
def symStart (symbol : ElfSymbol) (sec : ElfSection) : Nat :=
  u64 (u64 symbol.Value + 2 ^ 64 - u64 sec.Addr)

/-- `end := start + symbol.Size` in `uint64` arithmetic. -/
def symEnd (symbol : ElfSymbol) (sec : ElfSection) : Nat :=
  u64 (symStart symbol sec + u64 symbol.Size)

/-- The byte-range extraction part of `findRetOffsets` (lines 145-158):
index the section table by the symbol owning-section index, read the
section data, and slice `elfText[start:end]`.  The Go code performs no
bounds validation: an out-of-range section index or slice bound is a
runtime panic, modelled as `GoErr.runtimePanic` (we model the slice
capacity as equal to its length). -/
def extractBytes (goElf : ElfFile) (symbol : ElfSymbol) :
    Except GoErr (List Nat) :=
  match goElf.Sections[symbol.Section]? with
  | none => Except.error GoErr.runtimePanic
  | some sec =>
    match sec.Data with
    | Except.error _ => Except.error GoErr.sectionDataErr
    | Except.ok elfText =>
      let start := symStart symbol sec
      let endIdx := symEnd symbol sec
      if start ≤ endIdx ∧ endIdx ≤ elfText.length then
        Except.ok (List.take (endIdx - start) (List.drop start elfText))
      else
        Except.error GoErr.runtimePanic

/-- `findRetOffsets` of the Go source (lines 113-164): resolve the
symbol, extract its byte range, decode it.  The decode error of
`decodeInstruction` is discarded by the Go code (`offsets, _ =`), so a
failed decode leaves `offsets` empty and the function reports
`ErrorNoRetFound` (`noRetFound`), exactly as an empty successful decode
does. -/
def findRetOffsets (goElf : ElfFile) (goElfArch : String) (dx da : Decoder)
    (symbolName : String) : Except GoErr (List Nat) :=
  match resolveSymbol goElf symbolName with
  | Except.error e => Except.error e
  | Except.ok symbol =>
    match extractBytes goElf symbol with
    | Except.error e => Except.error e
    | Except.ok instHex =>
      let offsets :=
        match decodeInstruction goElfArch dx da instHex with
        | some (Except.ok offs) => offs
        | _ => []
      if offsets.length = 0 then
        Except.error GoErr.noRetFound
      else
        Except.ok offsets

/-- `checkModel` of the Go source (lines 193-209): keylog/key map to the
key model; pcap/pcapng require a non-empty interface name and map to the
pcap model; every other string silently maps to the text model. -/
def checkModel (gc : GoTLSConfig) : Except GoErr String :=
  if gc.Model = TlsCaptureModelKeylog ∨ gc.Model = TlsCaptureModelKey then
    Except.ok TlsCaptureModelKey
  else if gc.Model = TlsCaptureModelPcap ∨ gc.Model = TlsCaptureModelPcapng then
    if gc.Ifname = "" then
      Except.error GoErr.ifnameRequired
    else
      Except.ok TlsCaptureModelPcap
  else
    Except.ok TlsCaptureModelText

/-- `Check` of the Go source (lines 62-107).  The effectful
collaborators are parameters: `statResult` models `os.Stat`, `elfOpen`
models `elf.Open`, `hostArch` models `runtime.GOARCH`, `dx`/`da` the
instruction decoders.  The machine field is classified into
{amd64, arm64, unsupport_arch}; a classification differing from the
host architecture is the mismatch error, and only then would the
(unreachable for real host architectures) unsupported-arch switch fire. -/
def Check (gc : GoTLSConfig) (statResult : Except Unit Unit)
    (elfOpen : Except Unit ElfFile) (hostArch : String) (dx da : Decoder) :
    Except GoErr (List Nat) :=
  if gc.Path = "" then
    Except.error GoErr.goBinNotFound
  else
    match checkModel gc with
    | Except.error e => Except.error e
    | Except.ok _ =>
      match statResult with
      | Except.error _ => Except.error GoErr.statErr
      | Except.ok _ =>
        match elfOpen with
        | Except.error _ => Except.error GoErr.elfOpenErr
        | Except.ok goElf =>
          let goElfArch :=
            if goElf.Machine = EM_AARCH64 then "arm64"
            else if goElf.Machine = EM_X86_64 then "amd64"
            else "unsupport_arch"
          if goElfArch ≠ hostArch then
            Except.error (GoErr.archMismatch hostArch goElfArch)
          else if goElfArch = "amd64" ∨ goElfArch = "arm64" then
            findRetOffsets goElf goElfArch dx da GoTlsReadFunc
          else
            Except.error (GoErr.unsupportedArch goElfArch)

/-- Modelled from the spec: the third-party amd64 decoder
(`golang.org/x/arch/x86/x86asm.Decode`) is outside this repository.
This concrete instance of the `Decoder` interface follows the spec
scenarios: `0xC3` is the one-byte near return, `0x90` is the one-byte
`NOP`; every other byte sequence is a decode error. -/
def specAmd64Decoder : Decoder := fun bs =>
  match bs with
  | 0xC3 :: _ => Except.ok (⟨1, Nat.one_pos⟩, true)
  | 0x90 :: _ => Except.ok (⟨1, Nat.one_pos⟩, false)
  | _ => Except.error ()

/-- Modelled from the spec: the third-party arm64 decoder
(`golang.org/x/arch/arm64/arm64asm.Decode`) is outside this repository.
This concrete instance of the `Decoder` interface follows the spec:
the 4-byte little-endian encoding of `RET` (`0xD65F03C0`) decodes as a
return, the encoding of `NOP` (`0xD503201F`) as a non-return; every
other byte sequence is a decode error. -/
def specArm64Decoder : Decoder := fun bs =>
  match bs with
  | 0xC0 :: 0x03 :: 0x5F :: 0xD6 :: _ => Except.ok (⟨4, by decide⟩, true)
  | 0x1F :: 0x20 :: 0x03 :: 0xD5 :: _ => Except.ok (⟨4, by decide⟩, false)
  | _ => Except.error ()

/-- Helper: the scan loop never exhausts its fuel when given at least
`instHex.length - i` fuel, because every step advances the cursor by a
positive amount (the decoded length on amd64, the constant 4
otherwise). -/
theorem scanLoop_some (arch : String) (dx da : Decoder) (instHex : List Nat) :
    ∀ (fuel i : Nat) (offsets : List Nat),
      instHex.length - i ≤ fuel →
      scanLoop arch dx da instHex fuel i offsets ≠ none := by
  intro fuel
  induction fuel with
  | zero =>
    intro i offsets hfuel
    simp only [scanLoop]
    rw [if_neg (by omega)]
    simp
  | succ fuel ih =>
    intro i offsets hfuel
    simp only [scanLoop]
    by_cases h : i < instHex.length
    · rw [if_pos h]
      by_cases harch : arch = "amd64"
      · rw [if_pos harch]
        cases hdx : dx (List.drop i instHex) with
        | error e => simp
        | ok r =>
          obtain ⟨l, isRet⟩ := r
          exact ih (i + l.val) _ (by have := l.property; omega)
      · rw [if_neg harch]
        cases hda : da (List.drop i instHex) with
        | error e => simp
        | ok r =>
          obtain ⟨l, isRet⟩ := r
          exact ih (i + Arm64armInstSize) _ (by simp [Arm64armInstSize]; omega)
    · rw [if_neg h]
      simp

/-- Helper: whenever the scan loop finishes successfully starting from
an accumulator whose offsets are strictly sorted, below the cursor and
below the slice length, the final offsets are strictly sorted and below
the slice length. -/
theorem scanLoop_sorted (arch : String) (dx da : Decoder) (instHex : List Nat) :
    ∀ (fuel i : Nat) (offsets res : List Nat),
      List.Pairwise (· < ·) offsets →
      (∀ o ∈ offsets, o < i) →
      (∀ o ∈ offsets, o < instHex.length) →
      scanLoop arch dx da instHex fuel i offsets = some (Except.ok res) →
      List.Pairwise (· < ·) res ∧ ∀ o ∈ res, o < instHex.length := by
  intro fuel
  induction fuel with
  | zero =>
    intro i offsets res hsort hlt hlen hrun
    simp only [scanLoop] at hrun
    by_cases h : i < instHex.length
    · rw [if_pos h] at hrun; exact absurd hrun (by simp)
    · rw [if_neg h] at hrun
      simp only [Option.some.injEq, Except.ok.injEq] at hrun
      subst hrun
      exact ⟨hsort, hlen⟩
  | succ fuel ih =>
    intro i offsets res hsort hlt hlen hrun
    simp only [scanLoop] at hrun
    by_cases h : i < instHex.length
    · rw [if_pos h] at hrun
      by_cases harch : arch = "amd64"
      · rw [if_pos harch] at hrun
        cases hdx : dx (List.drop i instHex) with
        | error e => rw [hdx] at hrun; exact absurd hrun (by simp)
        | ok r =>
          rw [hdx] at hrun
          obtain ⟨l, isRet⟩ := r
          refine ih (i + l.val) _ res ?_ ?_ ?_ hrun
          · cases isRet with
            | true =>
              simp only [if_pos]
              rw [List.pairwise_append]
              refine ⟨hsort, List.pairwise_singleton _ _, ?_⟩
              intro a ha b hb
              simp only [List.mem_singleton] at hb
              subst hb
              exact hlt a ha
            | false => simpa using hsort
          · intro o ho
            have hl := l.property
            cases isRet with
            | true =>
              simp only [if_pos, List.mem_append, List.mem_singleton] at ho
              rcases ho with ho | ho
              · have := hlt o ho; omega
              · omega
            | false =>
              simp at ho
              have := hlt o ho; omega
          · intro o ho
            cases isRet with
            | true =>
              simp only [if_pos, List.mem_append, List.mem_singleton] at ho
              rcases ho with ho | ho
              · exact hlen o ho
              · omega
            | false =>
              simp at ho
              exact hlen o ho
      · rw [if_neg harch] at hrun
        cases hda : da (List.drop i instHex) with
        | error e => rw [hda] at hrun; exact absurd hrun (by simp)
        | ok r =>
          rw [hda] at hrun
          obtain ⟨l, isRet⟩ := r
          refine ih (i + Arm64armInstSize) _ res ?_ ?_ ?_ hrun
          · cases isRet with
            | true =>
              simp only [if_pos]
              rw [List.pairwise_append]
              refine ⟨hsort, List.pairwise_singleton _ _, ?_⟩
              intro a ha b hb
              simp only [List.mem_singleton] at hb
              subst hb
              exact hlt a ha
            | false => simpa using hsort
          · intro o ho
            cases isRet with
            | true =>
              simp only [if_pos, List.mem_append, List.mem_singleton] at ho
              rcases ho with ho | ho
              · have := hlt o ho; simp [Arm64armInstSize]; omega
              · simp [Arm64armInstSize]; omega
            | false =>
              simp at ho
              have := hlt o ho; simp [Arm64armInstSize]; omega
          · intro o ho
            cases isRet with
            | true =>
              simp only [if_pos, List.mem_append, List.mem_singleton] at ho
              rcases ho with ho | ho
              · exact hlen o ho
              · omega
            | false =>
              simp at ho
              exact hlen o ho
    · rw [if_neg h] at hrun
      simp only [Option.some.injEq, Except.ok.injEq] at hrun
      subst hrun
      exact ⟨hsort, hlen⟩

/-- Helper: `List.find?` with an exact-name predicate returns the entry
at the first index whose name matches. -/
theorem find_first {nm : String} :
    ∀ (l : List ElfSymbol) (i : Nat) (h : i < l.length),
      (l.get ⟨i, h⟩).Name = nm →
      (∀ (j : Nat) (hj : j < i), (l.get ⟨j, lt_trans hj h⟩).Name ≠ nm) →
      List.find? (fun s => s.Name == nm) l = some (l.get ⟨i, h⟩) := by
  intro l
  induction l with
  | nil => intro i h; exact absurd h (by simp)
  | cons a t ih =>
    intro i h hname hfirst
    cases i with
    | zero =>
      have hpa : (a.Name == nm) = true := by
        simp only [List.get] at hname
        simp [hname]
      simp only [List.find?, hpa]
      simp [List.get]
    | succ i =>
      have hne : a.Name ≠ nm := by
        have := hfirst 0 (Nat.succ_pos i)
        simpa [List.get] using this
      have hpa : (a.Name == nm) = false := by simp [hne]
      simp only [List.find?, hpa]
      have ht : i < t.length := by
        simpa [Nat.succ_lt_succ_iff] using h
      have hname2 : (t.get ⟨i, ht⟩).Name = nm := by
        simpa [List.get] using hname
      have hfirst2 : ∀ (j : Nat) (hj : j < i),
          (t.get ⟨j, lt_trans hj ht⟩).Name ≠ nm := by
        intro j hj
        have := hfirst (j + 1) (Nat.succ_lt_succ hj)
        simpa [List.get] using this
      have := ih i ht hname2 hfirst2
      simpa [List.get] using this

/-- Fixture for the C1 counterexample: a binary with one symbol `f`
whose body is `[0xC3, 0x01]` — a RET followed by an undecodable byte. -/
def elfC1 : ElfFile :=
  ⟨62, [⟨"f", 0, 2, 0⟩], [], [⟨0, Except.ok [0xC3, 0x01]⟩]⟩

/-- Fixture for the C1 witness: symbol body `[0x01]`, which fails to
decode immediately. -/
def elfC1w : ElfFile :=
  ⟨62, [⟨"f", 0, 1, 0⟩], [], [⟨0, Except.ok [0x01]⟩]⟩

/-- C1 counterexample: on the function body `[0xC3, 0x01]` the decoder
records the RET at offset 0 and then fails on the tail, and
`decodeInstruction` propagates that decode error (second conjunct); but
`findRetOffsets` discards it (`offsets, _ =` in the Go source) and
reports `ErrorNoRetFound` instead, so the whole resolution does NOT
propagate the decode error to the caller as the claim states (first and
third conjuncts). -/
theorem findRetOffsets_swallows_decode_error_cex :
    findRetOffsets elfC1 "amd64" specAmd64Decoder specArm64Decoder "f"
      = Except.error GoErr.noRetFound ∧
    decodeInstruction "amd64" specAmd64Decoder specArm64Decoder [0xC3, 0x01]
      = some (Except.error ()) ∧
    findRetOffsets elfC1 "amd64" specAmd64Decoder specArm64Decoder "f"
      ≠ Except.error GoErr.decodeErr :=
  ⟨rfl, rfl, by
    rw [show findRetOffsets elfC1 "amd64" specAmd64Decoder specArm64Decoder "f"
      = Except.error GoErr.noRetFound from rfl]
    simp⟩

/-- C1 (amended): when the instruction decoder fails anywhere in the
extracted function bytes, the whole resolution fails — no partial
offset list is returned as a success — but the error surfaced to the
caller is `ErrorNoRetFound`, not the decode error, which
`findRetOffsets` discards. -/
theorem findRetOffsets_decode_error_noRetFound (goElf : ElfFile) (arch : String)
    (dx da : Decoder) (nm : String) (symbol : ElfSymbol) (instHex : List Nat)
    (hres : resolveSymbol goElf nm = Except.ok symbol)
    (hext : extractBytes goElf symbol = Except.ok instHex)
    (hdec : decodeInstruction arch dx da instHex = some (Except.error ())) :
    findRetOffsets goElf arch dx da nm = Except.error GoErr.noRetFound := by
  simp [findRetOffsets, hres, hext, hdec]

/-- C1 witness: a concrete run of the amended theorem. -/
theorem findRetOffsets_decode_error_noRetFound_witness :
    findRetOffsets elfC1w "amd64" specAmd64Decoder specArm64Decoder "f"
      = Except.error GoErr.noRetFound :=
  findRetOffsets_decode_error_noRetFound elfC1w "amd64" specAmd64Decoder
    specArm64Decoder "f" ⟨"f", 0, 1, 0⟩ [0x01] rfl rfl rfl

/-- Fixture for the C2 counterexample: symbol address 0 lies outside
the owning section span, which starts at `0x1000`. -/
def symC2 : ElfSymbol := ⟨"f", 0, 1, 0⟩

/-- Fixture for the C2 counterexample: the owning section. -/
def secC2 : ElfSection := ⟨0x1000, Except.ok [0xC3]⟩

/-- Fixture for the C2 counterexample: the binary. -/
def elfC2 : ElfFile := ⟨62, [symC2], [], [secC2]⟩

/-- C2 counterexample: for a symbol whose address lies outside its
section span, `start`/`end` (uint64 arithmetic) violate
`start ≤ end ≤ len(sectionBytes)` (first conjunct), and extraction does
NOT return a `CorruptSymbolRange` error: the Go code has no such check
and instead panics on the out-of-range slice, modelled as
`runtimePanic` (second and third conjuncts). -/
theorem extractBytes_corrupt_range_panics_cex :
    ¬(symStart symC2 secC2 ≤ symEnd symC2 secC2 ∧ symEnd symC2 secC2 ≤ 1) ∧
    extractBytes elfC2 symC2 = Except.error GoErr.runtimePanic ∧
    extractBytes elfC2 symC2 ≠ Except.error GoErr.corruptSymbolRange :=
  ⟨by decide, rfl, by
    rw [show extractBytes elfC2 symC2 = Except.error GoErr.runtimePanic from rfl]
    simp⟩

/-- C2 (amended): extraction computes `start = symbol.address -
section.address` and `end = start + symbol.size` in uint64 arithmetic;
when `0 ≤ start ≤ end ≤ len(sectionBytes)` is violated the result is a
runtime panic (`runtimePanic`), not a returned `CorruptSymbolRange`
error — the code performs no range validation; when the condition holds
the byte slice `sectionBytes[start:end]` is returned. -/
theorem extractBytes_range_spec (goElf : ElfFile) (symbol : ElfSymbol)
    (sec : ElfSection) (elfText : List Nat)
    (hsec : goElf.Sections[symbol.Section]? = some sec)
    (hdata : sec.Data = Except.ok elfText) :
    (¬(symStart symbol sec ≤ symEnd symbol sec ∧
        symEnd symbol sec ≤ elfText.length) →
      extractBytes goElf symbol = Except.error GoErr.runtimePanic) ∧
    ((symStart symbol sec ≤ symEnd symbol sec ∧
        symEnd symbol sec ≤ elfText.length) →
      extractBytes goElf symbol = Except.ok
        (List.take (symEnd symbol sec - symStart symbol sec)
          (List.drop (symStart symbol sec) elfText))) := by
  constructor <;> intro hc <;> simp [extractBytes, hsec, hdata, hc]

/-- Fixture for the C2 witness: symbol size 5 overruns the one-byte
section data. -/
def symC2w : ElfSymbol := ⟨"f", 0, 5, 0⟩

/-- Fixture for the C2 witness: the owning section. -/
def secC2w : ElfSection := ⟨0, Except.ok [0xC3]⟩

/-- Fixture for the C2 witness: the binary. -/
def elfC2w : ElfFile := ⟨62, [symC2w], [], [secC2w]⟩

/-- C2 witness: a concrete run of the amended theorem. -/
theorem extractBytes_range_spec_witness :
    extractBytes elfC2w symC2w = Except.error GoErr.runtimePanic :=
  (extractBytes_range_spec elfC2w symC2w secC2w [0xC3] rfl rfl).1 (by decide)

/-- Fixture: a well-formed configuration with the default (text)
capture model. -/
def gcText : GoTLSConfig := ⟨"/bin/app", "", ""⟩

/-- Fixture: a binary whose ELF machine field (243, RISC-V) is neither
AArch64 nor x86-64. -/
def elfRiscv : ElfFile := ⟨243, [], [], []⟩

/-- Fixture: a binary whose ELF machine field (40, 32-bit ARM) is
neither AArch64 nor x86-64. -/
def elfArm32 : ElfFile := ⟨40, [], [], []⟩

/-- C3 counterexample: for a binary with an unsupported machine field
(RISC-V) on an amd64 host, `Check` fails with the architecture-mismatch
error (`Go Application not match, want:amd64, have:unsupport_arch`),
NOT with the `unsupport CPU arch` (`UnsupportedArchitecture`) error the
claim asserts: the classification `unsupport_arch` never equals the
host architecture, so the mismatch branch always fires first. -/
theorem Check_unsupported_arch_mismatch_cex :
    Check gcText (Except.ok ()) (Except.ok elfRiscv) "amd64"
        specAmd64Decoder specArm64Decoder
      = Except.error (GoErr.archMismatch "amd64" "unsupport_arch") ∧
    Check gcText (Except.ok ()) (Except.ok elfRiscv) "amd64"
        specAmd64Decoder specArm64Decoder
      ≠ Except.error (GoErr.unsupportedArch "unsupport_arch") :=
  ⟨rfl, by
    rw [show Check gcText (Except.ok ()) (Except.ok elfRiscv) "amd64"
        specAmd64Decoder specArm64Decoder
      = Except.error (GoErr.archMismatch "amd64" "unsupport_arch") from rfl]
    simp⟩

/-- C3 (amended): for every binary whose ELF machine field is neither
AArch64 nor x86-64, validation fails — but with the
`ArchitectureMismatch` error carrying the expected host architecture
and the detected value `unsupport_arch`, since that classification can
never equal a real host architecture string; the dedicated
`unsupport CPU arch` branch of the source is unreachable. -/
theorem Check_unsupported_arch_mismatch (gc : GoTLSConfig)
    (goElf : ElfFile) (hostArch : String) (dx da : Decoder) (m : String)
    (hpath : gc.Path ≠ "")
    (hmodel : checkModel gc = Except.ok m)
    (hm1 : goElf.Machine ≠ EM_AARCH64)
    (hm2 : goElf.Machine ≠ EM_X86_64)
    (hhost : hostArch ≠ "unsupport_arch") :
    Check gc (Except.ok ()) (Except.ok goElf) hostArch dx da =
      Except.error (GoErr.archMismatch hostArch "unsupport_arch") := by
  have hne : "unsupport_arch" ≠ hostArch := Ne.symm hhost
  simp [Check, hpath, hmodel, hm1, hm2, hne]

/-- C3 witness: a concrete run of the amended theorem on a 32-bit ARM
binary with an arm64 host. -/
theorem Check_unsupported_arch_mismatch_witness :
    Check gcText (Except.ok ()) (Except.ok elfArm32) "arm64"
        specAmd64Decoder specArm64Decoder
      = Except.error (GoErr.archMismatch "arm64" "unsupport_arch") :=
  Check_unsupported_arch_mismatch gcText elfArm32 "arm64"
    specAmd64Decoder specArm64Decoder TlsCaptureModelText
    (by decide) rfl (by decide) (by decide) (by decide)

/-- C4: symbol resolution searches the concatenation of the static
symbol table followed by the dynamic symbol table; if the concatenation
is empty it fails with the no-symbols-found error; if no entry matches
the requested name exactly it fails with `SymbolNotFound`; otherwise it
returns the FIRST entry (in concatenated order) whose name equals the
requested name exactly. -/
theorem resolveSymbol_spec (goElf : ElfFile) (nm : String) :
    ((goElf.Symbols ++ goElf.DynamicSymbols) = [] →
      resolveSymbol goElf nm = Except.error GoErr.noSymbolsFound) ∧
    ((goElf.Symbols ++ goElf.DynamicSymbols) ≠ [] →
      (∀ s ∈ goElf.Symbols ++ goElf.DynamicSymbols, s.Name ≠ nm) →
      resolveSymbol goElf nm = Except.error GoErr.symbolNotFound) ∧
    (∀ (i : Nat) (h : i < (goElf.Symbols ++ goElf.DynamicSymbols).length),
      ((goElf.Symbols ++ goElf.DynamicSymbols).get ⟨i, h⟩).Name = nm →
      (∀ (j : Nat) (hj : j < i),
        ((goElf.Symbols ++ goElf.DynamicSymbols).get ⟨j, lt_trans hj h⟩).Name ≠ nm) →
      resolveSymbol goElf nm =
        Except.ok ((goElf.Symbols ++ goElf.DynamicSymbols).get ⟨i, h⟩)) := by
  refine ⟨?_, ?_, ?_⟩
  · intro he
    simp [resolveSymbol, he]
  · intro hne hall
    have hlen : ¬((goElf.Symbols ++ goElf.DynamicSymbols).length = 0) := by
      simpa [List.length_eq_zero] using hne
    have hfind : List.find? (fun s => s.Name == nm)
        (goElf.Symbols ++ goElf.DynamicSymbols) = none := by
      rw [List.find?_eq_none]
      intro s hs
      simpa using hall s hs
    simp only [resolveSymbol]
    rw [if_neg hlen, hfind]
  · intro i h hname hfirst
    have hlen : ¬((goElf.Symbols ++ goElf.DynamicSymbols).length = 0) := by omega
    have hfind := find_first (goElf.Symbols ++ goElf.DynamicSymbols) i h hname hfirst
    simp only [resolveSymbol]
    rw [if_neg hlen, hfind]

/-- Fixture for the C4 witness: the name `f` occurs twice in the static
table (with different addresses) and `g` occurs in the dynamic table. -/
def elfDup : ElfFile :=
  ⟨62, [⟨"f", 10, 1, 0⟩, ⟨"f", 20, 1, 0⟩], [⟨"g", 30, 1, 0⟩], []⟩

/-- C4 witness: the first static-table match wins over the duplicate. -/
theorem resolveSymbol_spec_witness :
    resolveSymbol elfDup "f" = Except.ok ⟨"f", 10, 1, 0⟩ :=
  (resolveSymbol_spec elfDup "f").2.2 0 (by decide) rfl
    (fun j hj => absurd hj (Nat.not_lt_zero j))

/-- C5: a function body that decodes completely with zero recorded
return offsets makes `findRetOffsets` fail with `ErrorNoRetFound`,
never succeed with an empty list. -/
theorem findRetOffsets_empty_noRetFound (goElf : ElfFile) (arch : String)
    (dx da : Decoder) (nm : String) (symbol : ElfSymbol) (instHex : List Nat)
    (hres : resolveSymbol goElf nm = Except.ok symbol)
    (hext : extractBytes goElf symbol = Except.ok instHex)
    (hdec : decodeInstruction arch dx da instHex = some (Except.ok [])) :
    findRetOffsets goElf arch dx da nm = Except.error GoErr.noRetFound := by
  simp [findRetOffsets, hres, hext, hdec]

/-- Fixture for the C5 witness: symbol body `[0x90]`, a single NOP. -/
def elfC5 : ElfFile :=
  ⟨62, [⟨"f", 0, 1, 0⟩], [], [⟨0, Except.ok [0x90]⟩]⟩

/-- C5 witness: a concrete run — an all-NOP body yields the
`ErrorNoRetFound` failure. -/
theorem findRetOffsets_empty_noRetFound_witness :
    findRetOffsets elfC5 "amd64" specAmd64Decoder specArm64Decoder "f"
      = Except.error GoErr.noRetFound :=
  findRetOffsets_empty_noRetFound elfC5 "amd64" specAmd64Decoder
    specArm64Decoder "f" ⟨"f", 0, 1, 0⟩ [0x90] rfl rfl rfl

/-- C6: on amd64 the body `[0xC3]` scans to offsets `[0]`, and the body
`NOP; RET; RET` (`[0x90, 0xC3, 0xC3]`, lengths 1,1,1) scans to offsets
`[1, 2]`. -/
theorem decodeInstruction_amd64_scenarios :
    decodeInstruction "amd64" specAmd64Decoder specArm64Decoder [0xC3]
      = some (Except.ok [0]) ∧
    decodeInstruction "amd64" specAmd64Decoder specArm64Decoder [0x90, 0xC3, 0xC3]
      = some (Except.ok [1, 2]) :=
  ⟨rfl, rfl⟩

/-- C7: for every architecture tag, decoders and byte slice on which
the scan succeeds, the returned offset list is strictly increasing and
every offset lies within `[0, length)` (offsets are `Nat`, hence
nonnegative). -/
theorem decodeInstruction_offsets_sorted_bounded (arch : String)
    (dx da : Decoder) (instHex : List Nat) (offs : List Nat)
    (h : decodeInstruction arch dx da instHex = some (Except.ok offs)) :
    List.Pairwise (· < ·) offs ∧ ∀ o ∈ offs, o < instHex.length :=
  scanLoop_sorted arch dx da instHex instHex.length 0 [] offs
    (by simp) (by simp) (by simp) h

/-- C7 witness: a concrete run on `[0x90, 0xC3]`, whose offsets are
`[1]`. -/
theorem decodeInstruction_offsets_sorted_bounded_witness :
    List.Pairwise (· < ·) [1] ∧
    ∀ o ∈ [1], o < ([0x90, 0xC3] : List Nat).length :=
  decodeInstruction_offsets_sorted_bounded "amd64" specAmd64Decoder
    specArm64Decoder [0x90, 0xC3] [1] rfl

/-- C8: the scan loop terminates on every finite byte slice and either
architecture tag: because every successful decode advances the cursor
by a positive length (the constant 4 on arm64), fuel equal to the slice
length is never exhausted, so the scan always yields a definite result
(an error or a final offset list with the cursor at or past the end). -/
theorem decodeInstruction_terminates (arch : String) (dx da : Decoder)
    (instHex : List Nat) :
    ∃ r, decodeInstruction arch dx da instHex = some r := by
  cases hd : decodeInstruction arch dx da instHex with
  | none =>
    exact absurd hd (scanLoop_some arch dx da instHex instHex.length 0 [] (by omega))
  | some r => exact ⟨r, rfl⟩

/-- C9: a configuration in pcap or pcapng capture model with an empty
interface name makes `Check` fail with a configuration error
(`ifnameRequired`, or the missing-path error when the path is also
empty), and the outcome is the same for every `os.Stat` and `elf.Open`
oracle — i.e. the failure is decided before the binary is opened and
before any symbol resolution or scanning is attempted. -/
theorem Check_pcap_empty_ifname_fails_early (gc : GoTLSConfig)
    (statResult : Except Unit Unit) (elfOpen : Except Unit ElfFile)
    (hostArch : String) (dx da : Decoder)
    (hm : gc.Model = TlsCaptureModelPcap ∨ gc.Model = TlsCaptureModelPcapng)
    (hi : gc.Ifname = "") :
    Check gc statResult elfOpen hostArch dx da =
      Except.error (if gc.Path = "" then GoErr.goBinNotFound
        else GoErr.ifnameRequired) ∧
    (∀ (statResult2 : Except Unit Unit) (elfOpen2 : Except Unit ElfFile),
      Check gc statResult elfOpen hostArch dx da =
        Check gc statResult2 elfOpen2 hostArch dx da) := by
  have hcm : checkModel gc = Except.error GoErr.ifnameRequired := by
    rcases hm with hm | hm <;>
      simp [checkModel, hm, hi, TlsCaptureModelPcap, TlsCaptureModelPcapng,
        TlsCaptureModelKey, TlsCaptureModelKeylog]
  constructor
  · by_cases hp : gc.Path = ""
    · simp [Check, hp]
    · simp [Check, hp, hcm]
  · intro statResult2 elfOpen2
    by_cases hp : gc.Path = ""
    · simp [Check, hp]
    · simp [Check, hp, hcm]

/-- Fixture for the C9 witness: pcap model with an empty interface
name. -/
def gcPcap : GoTLSConfig := ⟨"/bin/app", "pcap", ""⟩

/-- C9 witness: a concrete run of the theorem. -/
theorem Check_pcap_empty_ifname_fails_early_witness :
    Check gcPcap (Except.ok ()) (Except.ok elfRiscv) "amd64"
        specAmd64Decoder specArm64Decoder
      = Except.error GoErr.ifnameRequired := by
  have h := (Check_pcap_empty_ifname_fails_early gcPcap (Except.ok ())
    (Except.ok elfRiscv) "amd64" specAmd64Decoder specArm64Decoder
    (Or.inl rfl) rfl).1
  rw [if_neg (by decide)] at h
  exact h

/-- C10: every capture-model string that is none of the recognized
keylog, key, pcap or pcapng identifiers — including the empty string —
makes `checkModel` succeed with the text model; no error is returned
for an unrecognized identifier. -/
theorem checkModel_unknown_model_text (gc : GoTLSConfig)
    (h1 : gc.Model ≠ TlsCaptureModelKeylog)
    (h2 : gc.Model ≠ TlsCaptureModelKey)
    (h3 : gc.Model ≠ TlsCaptureModelPcap)
    (h4 : gc.Model ≠ TlsCaptureModelPcapng) :
    checkModel gc = Except.ok TlsCaptureModelText := by
  simp [checkModel, h1, h2, h3, h4]

/-- C10 witness: the empty model string maps to the text model. -/
theorem checkModel_unknown_model_text_witness :
    checkModel ⟨"/bin/app", "", ""⟩ = Except.ok TlsCaptureModelText :=
  checkModel_unknown_model_text ⟨"/bin/app", "", ""⟩
    (by decide) (by decide) (by decide) (by decide)

end GoTLSVerify
